import Mathlib

/-!
Verification of the Active Brownian Particle simulation repository
(crsdvaibhav/brownian-motion-simulations) against its specification.

The core is embedded shallowly over the rationals.  Floating-point real
arithmetic of the Python source is modelled by `ℚ`; the transcendental
functions `np.cos`, `np.sin`, `np.exp` are abstracted as function
parameters (`cosF`, `sinF`, `expF`), since none of the verified claims
depends on their values, only on bounds such as `|cosF x| ≤ 1`.

Namespace `SimUpdated` embeds the class `ParticleSimulation` of
`sim_updated.py` (the periodic-boundary ABP variant with the
time-averaged MSD estimator); namespace `Sim` embeds the
reflective/absorbing-wall variant of `sim.py`.
-/

namespace SimUpdated

/-- State of `ParticleSimulation` in `sim_updated.py`: the fields set in
`__init__` and `start_simulation` that the simulation core reads or writes
(canvas/widget handles are presentation-layer and omitted). -/
structure State where
  running : Bool
  v : ℚ
  eta : ℚ
  epsilon : ℚ
  Dr_theoretical : ℚ
  radius : ℚ
  position : ℚ × ℚ
  theta : ℚ
  angular_velocity : ℚ
  dt : ℚ
  positions_history : List (ℚ × ℚ)
  time_points : List ℚ
  current_time : ℚ
  update_counter : ℕ
  next_noise_update : ℚ
  width : ℚ
  height : ℚ
  deriving Repr, DecidableEq

/-- The periodic wrap applied to one coordinate in `update_position`
(`sim_updated.py` lines 187-195): `if p < 0: p += L  elif p > L: p -= L`. -/
def wrapCoord (p L : ℚ) : ℚ :=
  if p < 0 then p + L else if p > L then p - L else p

/-- `update_position` of `sim_updated.py` (lines 169-202): advance the
heading by `angular_velocity * dt`, move with speed `v` along the heading,
then wrap each coordinate periodically.  `cosF`/`sinF` abstract
`np.cos`/`np.sin`. -/
def update_position (cosF sinF : ℚ → ℚ) (s : State) : State :=
  let th := s.theta + s.angular_velocity * s.dt
  let vx := s.v * cosF th
  let vy := s.v * sinF th
  let px := s.position.1 + vx * s.dt
  let py := s.position.2 + vy * s.dt
  { s with
    theta := th
    position := (wrapCoord px s.width, wrapCoord py s.height) }

/-- One `animate` tick of `sim_updated.py` (lines 128-167), canvas calls
omitted: position update, time/counter advance, sub-sampled recording every
10th step, then the threshold-triggered noise redraw.  `noise` is the value
`np.random.uniform(-eta, eta)` would return on this tick. -/
def animate (cosF sinF : ℚ → ℚ) (noise : ℚ) (s : State) : State :=
  if s.running = false then s
  else
    let s1 := update_position cosF sinF s
    let s2 := { s1 with
      current_time := s1.current_time + s1.dt
      update_counter := s1.update_counter + 1 }
    let s3 :=
      if s2.update_counter % 10 = 0 then
        { s2 with
          positions_history := s2.positions_history ++ [s2.position]
          time_points := s2.time_points ++ [s2.current_time] }
      else s2
    if s3.current_time * 1000 ≥ s3.next_noise_update then
      { s3 with
        angular_velocity := noise
        next_noise_update := s3.next_noise_update + s3.epsilon }
    else s3

/-- `start_simulation` of `sim_updated.py` (lines 76-117), numeric path:
the three entry fields parse to `v`, `eta` and `epsilon_s` (seconds; the
code multiplies by 1000 to get ms), `noise` is the initial uniform draw.
Canvas size is the fixed 800 × 600 of `__init__`; `dt = 0.01`,
`radius = 5`.  No range validation is performed by the source. -/
def start_simulation (v eta epsilon_s noise : ℚ) : State :=
  { running := true
    v := v
    eta := eta
    epsilon := epsilon_s * 1000
    Dr_theoretical := eta ^ 2 / 6
    radius := 5
    position := (800 / 2, 600 / 2)
    theta := 0
    angular_velocity := noise
    dt := 1 / 100
    positions_history := [(800 / 2, 600 / 2)]
    time_points := [0]
    current_time := 0
    update_counter := 0
    next_noise_update := epsilon_s * 1000
    width := 800
    height := 600 }

/-- `calculate_theoretical_msd` of `sim_updated.py` (lines 204-209):
`2 * (v**2 / Dr) * (times + (1/Dr) * (np.exp(-Dr * times) - 1))`,
elementwise over the `times` array, reading `v` and `Dr_theoretical`
from the instance.  `expF` abstracts `np.exp`.  `v` and `Dr` are plain
Python floats, so when `Dr_theoretical = 0` the scalar division
`v**2 / Dr` raises `ZeroDivisionError` before any numpy broadcasting;
that error path is modelled as `none`. -/
def calculate_theoretical_msd (expF : ℚ → ℚ) (s : State) (times : List ℚ) :
    Option (List ℚ) :=
  if s.Dr_theoretical = 0 then none
  else some (times.map fun t =>
    2 * (s.v ^ 2 / s.Dr_theoretical) *
      (t + (1 / s.Dr_theoretical) * (expF (-s.Dr_theoretical * t) - 1)))

/-- The per-axis periodic displacement correction of `calculate_msd`
(`sim_updated.py` lines 232-235): `if abs(d) > L/2: d = L - abs(d)`. -/
def periodicCorrect (d L : ℚ) : ℚ :=
  if |d| > L / 2 then L - |d| else d

/-- Both axes of the in-place correction of the freshly computed
displacement pair `disp` (lines 231-235 of `sim_updated.py`). -/
def correctDisp (w h : ℚ) (disp : ℚ × ℚ) : ℚ × ℚ :=
  (periodicCorrect disp.1 w, periodicCorrect disp.2 h)

/-- `np.sum(disp**2)` after correction, for one start/end position pair
(lines 229-237): squared corrected displacement from `p` to `q`. -/
def sqDisp (w h : ℚ) (p q : ℚ × ℚ) : ℚ :=
  let d := correctDisp w h (q.1 - p.1, q.2 - p.2)
  d.1 ^ 2 + d.2 ^ 2

/-- The inner loop of `calculate_msd` for one lag index `k`
(lines 227-237): the list of squared corrected displacements over start
indices `i in range(n_points - k)`. -/
def squaredDisplacements (w h : ℚ) (positions : List (ℚ × ℚ)) (k : ℕ) : List ℚ :=
  (List.range (positions.length - k)).map fun i =>
    sqDisp w h (positions.getD i (0, 0)) (positions.getD (i + k) (0, 0))

/-- `np.mean` of a list of rationals. -/
def listMean (l : List ℚ) : ℚ := l.sum / (l.length : ℚ)

/-- `calculate_msd` of `sim_updated.py` (lines 211-245): for each lag
index `tau_idx in range(1, min(n_points, 1000))` compute
`tau = times[tau_idx] - times[0]` and, when the squared-displacement list
is non-empty, append `(tau, mean)`; the two appended arrays are returned
as the curve of `(tau, msd)` pairs. -/
def calculate_msd (w h : ℚ) (positions : List (ℚ × ℚ)) (times : List ℚ) :
    List (ℚ × ℚ) :=
  (List.range' 1 (min positions.length 1000 - 1)).filterMap fun k =>
    if (squaredDisplacements w h positions k).isEmpty then none
    else some (times.getD k 0 - times.getD 0 0,
      listMean (squaredDisplacements w h positions k))

/-- The method `calculate_msd` as a transformer on the instance state: it
reads `positions_history` and `time_points` (copying them into local numpy
arrays) and writes no instance field. -/
def calculate_msd_method (s : State) : List (ℚ × ℚ) × State :=
  (calculate_msd s.width s.height s.positions_history s.time_points, s)

end SimUpdated

namespace Sim

/-- State of `ParticleSimulation` in `sim.py`: the fields of `__init__`
that the simulation core reads or writes (canvas/widget handles and the
trail are presentation-layer and omitted). -/
structure State where
  running : Bool
  radius : ℚ
  position : ℚ × ℚ
  initial_position : ℚ × ℚ
  theta : ℚ
  neta : ℚ
  angular_velocity : ℚ
  speed : ℚ
  velocity : ℚ × ℚ
  current_time : ℕ
  positions_history : List (ℚ × ℚ)
  time_steps : List ℕ
  msd_values : List ℚ
  width : ℚ
  height : ℚ
  deriving Repr, DecidableEq

/-- `update_position` of `sim.py` (lines 78-118): advance the heading by
`angular_velocity` (one frame), move with `speed` along the heading; if
either coordinate of the moved position leaves `[radius, size - radius]`
(tested with `<= 0` / `>=` against the wall), zero the velocity, angular
velocity and speed and stop the run; then record time, position and the
squared displacement from the initial position. -/
def update_position (cosF sinF : ℚ → ℚ) (s : State) : State :=
  let th := s.theta + s.angular_velocity
  let vel := (s.speed * cosF th, s.speed * sinF th)
  let pos := (s.position.1 + vel.1, s.position.2 + vel.2)
  let s1 :=
    if pos.1 - s.radius ≤ 0 ∨ pos.1 + s.radius ≥ s.width ∨
        pos.2 - s.radius ≤ 0 ∨ pos.2 + s.radius ≥ s.height then
      { s with
        theta := th
        position := pos
        velocity := (0, 0)
        angular_velocity := 0
        speed := 0
        running := false }
    else
      { s with theta := th, position := pos, velocity := vel }
  { s1 with
    current_time := s1.current_time + 1
    positions_history := s1.positions_history ++ [pos]
    time_steps := s1.time_steps ++ [s1.current_time + 1]
    msd_values := s1.msd_values ++
      [(pos.1 - s.initial_position.1) ^ 2 + (pos.2 - s.initial_position.2) ^ 2] }

end Sim

section Helpers

/-- Sample started state used by concrete witnesses: the paper parameters
`v = 3`, `eta = 3`, `epsilon = 0.5 s`, initial noise draw `1`. -/
def sampleState : SimUpdated.State := SimUpdated.start_simulation 3 3 (1 / 2) 1

lemma listMean_nonneg (l : List ℚ) (h : ∀ a ∈ l, 0 ≤ a) :
    0 ≤ SimUpdated.listMean l :=
  div_nonneg (List.sum_nonneg h) (by positivity)

lemma sqDisp_nonneg (w h : ℚ) (p q : ℚ × ℚ) : 0 ≤ SimUpdated.sqDisp w h p q := by
  unfold SimUpdated.sqDisp
  positivity

end Helpers

/-- C4: every step of the trajectory generator advances the heading by
exactly `angular_velocity * dt`, with no wrapping into `[0, 2π)`. -/
theorem heading_increment (cosF sinF : ℚ → ℚ) (s : SimUpdated.State) :
    (SimUpdated.update_position cosF sinF s).theta =
      s.theta + s.angular_velocity * s.dt := rfl

/-- C2: in the MSD estimator under periodic boundaries, a raw displacement
component with `|d| > L/2` is replaced by `L - |d|`, one with `|d| ≤ L/2`
is kept, and when both endpoint coordinates lie in `[0, L]` the corrected
component has absolute value at most `L/2`. -/
theorem periodic_correction_bounded (p q L : ℚ)
    (hp0 : 0 ≤ p) (hpL : p ≤ L) (hq0 : 0 ≤ q) (hqL : q ≤ L) :
    (|q - p| > L / 2 → SimUpdated.periodicCorrect (q - p) L = L - |q - p|) ∧
    (¬ |q - p| > L / 2 → SimUpdated.periodicCorrect (q - p) L = q - p) ∧
    |SimUpdated.periodicCorrect (q - p) L| ≤ L / 2 := by
  have hd : |q - p| ≤ L := by
    rcases abs_cases (q - p) with ⟨he, _⟩ | ⟨he, _⟩ <;> linarith
  unfold SimUpdated.periodicCorrect
  refine ⟨fun hgt => by rw [if_pos hgt], fun hle => by rw [if_neg hle], ?_⟩
  split_ifs with hgt
  · have h0 : 0 ≤ L - |q - p| := by linarith
    rw [abs_of_nonneg h0]
    linarith
  · push_neg at hgt
    exact hgt

/-- Witness for C2 at `p = 0`, `q = 3`, `L = 4`: the displacement `3`
exceeds `L/2 = 2` and is corrected to `4 - 3 = 1`, which is at most `2`. -/
theorem periodic_correction_bounded_witness :
    (|(3 : ℚ) - 0| > 4 / 2 →
      SimUpdated.periodicCorrect ((3 : ℚ) - 0) 4 = 4 - |(3 : ℚ) - 0|) ∧
    (¬ |(3 : ℚ) - 0| > 4 / 2 →
      SimUpdated.periodicCorrect ((3 : ℚ) - 0) 4 = (3 : ℚ) - 0) ∧
    |SimUpdated.periodicCorrect ((3 : ℚ) - 0) 4| ≤ 4 / 2 :=
  periodic_correction_bounded 0 3 4 (by norm_num) (by norm_num) (by norm_num)
    (by norm_num)

/-- Counterexample to C6 at `Dr = 0`: with `eta = 0` the derived
`Dr_theoretical` is `0` and `calculate_theoretical_msd` takes the
`ZeroDivisionError` path (the scalar float division `v**2 / Dr`),
returning nothing instead of the claimed value paired with `tau`. -/
theorem theoretical_msd_dr_zero_counterexample :
    SimUpdated.calculate_theoretical_msd (fun _ => 1)
      (SimUpdated.start_simulation 3 0 (1 / 2) 0) [(1 : ℚ)] = none := by
  norm_num [SimUpdated.calculate_theoretical_msd, SimUpdated.start_simulation]

/-- C6 (amended): for every `Dr ≠ 0`, `calculate_theoretical_msd`
returns a curve carrying, aligned with each input `tau`, exactly
`2 * (v^2 / Dr) * (tau + (1/Dr) * (exp (-Dr * tau) - 1))`, with `v` and
`Dr` read from the instance; at `Dr = 0` it raises instead. -/
theorem theoretical_msd_formula (expF : ℚ → ℚ) (s : SimUpdated.State)
    (times : List ℚ) (k : ℕ) (hDr : s.Dr_theoretical ≠ 0)
    (hk : k < times.length) :
    ∃ curve, SimUpdated.calculate_theoretical_msd expF s times = some curve ∧
      curve.getD k 0 =
        2 * (s.v ^ 2 / s.Dr_theoretical) *
          (times.getD k 0 + (1 / s.Dr_theoretical) *
            (expF (-s.Dr_theoretical * times.getD k 0) - 1)) := by
  unfold SimUpdated.calculate_theoretical_msd
  rw [if_neg hDr]
  refine ⟨_, rfl, ?_⟩
  rw [List.getD_eq_getElem?_getD, List.getElem?_map, List.getElem?_eq_getElem hk]
  simp [List.getD_eq_getElem?_getD, List.getElem?_eq_getElem hk]

/-- Witness for C6 at `v = 3`, `Dr = 3^2/6 ≠ 0`, `times = [2]`, constant
abstract exponential. -/
theorem theoretical_msd_formula_witness :
    ∃ curve, SimUpdated.calculate_theoretical_msd (fun _ => 1) sampleState [2]
        = some curve ∧
      curve.getD 0 0 =
        2 * (sampleState.v ^ 2 / sampleState.Dr_theoretical) *
          (List.getD [2] 0 0 + (1 / sampleState.Dr_theoretical) *
            ((fun _ => (1 : ℚ))
              (-sampleState.Dr_theoretical * List.getD [2] 0 0) - 1)) :=
  theoretical_msd_formula (fun _ => 1) sampleState [2] 0
    (by norm_num [sampleState, SimUpdated.start_simulation]) (by norm_num)

/-- C10: `calculate_msd` reads the recorded samples but never writes them:
the instance state, in particular `positions_history` and `time_points`,
is identical before and after the call (the periodic correction rewrites
only the per-pair displacement value). -/
theorem estimate_preserves_samples (s : SimUpdated.State) :
    (SimUpdated.calculate_msd_method s).2.positions_history =
        s.positions_history ∧
    (SimUpdated.calculate_msd_method s).2.time_points = s.time_points ∧
    (SimUpdated.calculate_msd_method s).2 = s :=
  ⟨rfl, rfl, rfl⟩

/-- Counterexample to C7: `start_simulation` accepts the non-positive
speed `-1` and the noise magnitude `0` (so `Dr = 0`) and proceeds with a
running simulation instead of raising a `ConfigurationError`;
`calculate_theoretical_msd` at `Dr = 0` then takes the division-by-zero
path (`ZeroDivisionError`), again not a `ConfigurationError`. -/
theorem no_validation_counterexample :
    (SimUpdated.start_simulation (-1) 0 (1 / 2) 0).running = true ∧
    (SimUpdated.start_simulation (-1) 0 (1 / 2) 0).v = -1 ∧
    (SimUpdated.start_simulation (-1) 0 (1 / 2) 0).Dr_theoretical = 0 ∧
    SimUpdated.calculate_theoretical_msd (fun _ => 1)
        (SimUpdated.start_simulation (-1) 0 (1 / 2) 0) [1] = none := by
  refine ⟨rfl, rfl, ?_, ?_⟩ <;>
    norm_num [SimUpdated.start_simulation, SimUpdated.calculate_theoretical_msd]

/-- Amended C7: no `ConfigurationError` exists — `start_simulation`
performs no range validation, accepting every numeric parameter triple
(non-positive speed, noise magnitude or delay included) and starting the
run, and at `Dr = 0` the theoretical MSD evaluation divides by zero,
raising `ZeroDivisionError` rather than a `ConfigurationError`. -/
theorem no_validation_amended (v eta epsilon_s noise : ℚ) (expF : ℚ → ℚ)
    (s : SimUpdated.State) (times : List ℚ) (hDr : s.Dr_theoretical = 0) :
    (SimUpdated.start_simulation v eta epsilon_s noise).running = true ∧
    SimUpdated.calculate_theoretical_msd expF s times = none :=
  ⟨rfl, by simp [SimUpdated.calculate_theoretical_msd, hDr]⟩

/-- Witness for the amended C7: the run started with speed `-2` is
running, and on a `Dr = 0` instance the theoretical MSD evaluation takes
the division-by-zero path. -/
theorem no_validation_amended_witness :
    (SimUpdated.start_simulation (-2) 5 (1 / 2) 0).running = true ∧
    SimUpdated.calculate_theoretical_msd (fun _ => 1)
      (SimUpdated.start_simulation 3 0 (1 / 2) 0) [(2 : ℚ)] = none :=
  no_validation_amended (-2) 5 (1 / 2) 0 (fun _ => 1)
    (SimUpdated.start_simulation 3 0 (1 / 2) 0) [(2 : ℚ)]
    (by norm_num [SimUpdated.start_simulation])

/-- C3: on a running step, the angular velocity is redrawn (to the uniform
draw `noise`) exactly when the accumulated elapsed time has reached the
`next_noise_update` threshold, compared with `>=` (in ms, hence the factor
1000), in which case `next_noise_update` advances by `epsilon`; otherwise
both are left unchanged.  The single branch redraws at most once per step. -/
theorem noise_refresh (cosF sinF : ℚ → ℚ) (noise : ℚ) (s : SimUpdated.State)
    (hrun : s.running = true) :
    (((s.current_time + s.dt) * 1000 ≥ s.next_noise_update →
      (SimUpdated.animate cosF sinF noise s).angular_velocity = noise ∧
      (SimUpdated.animate cosF sinF noise s).next_noise_update =
        s.next_noise_update + s.epsilon) ∧
    (¬ ((s.current_time + s.dt) * 1000 ≥ s.next_noise_update) →
      (SimUpdated.animate cosF sinF noise s).angular_velocity =
        s.angular_velocity ∧
      (SimUpdated.animate cosF sinF noise s).next_noise_update =
        s.next_noise_update)) := by
  unfold SimUpdated.animate
  rw [hrun]
  simp only [Bool.true_eq_false, if_false]
  constructor
  · intro hc
    split_ifs with h1 h2 h2 <;>
      simp_all [SimUpdated.update_position]
  · intro hc
    split_ifs with h1 h2 h2 <;>
      first
        | exact absurd h2 hc
        | simp_all [SimUpdated.update_position]

/-- Witness for C3: on the freshly started sample state the first tick has
elapsed time 10 ms, below the 500 ms threshold, so the angular velocity
keeps its initial value 1 and the threshold stays at 500. -/
theorem noise_refresh_witness :
    (SimUpdated.animate (fun _ => 1) (fun _ => 0) 2 sampleState).angular_velocity
        = 1 ∧
    (SimUpdated.animate (fun _ => 1) (fun _ => 0) 2 sampleState).next_noise_update
        = 500 := by
  have h := (noise_refresh (fun _ => 1) (fun _ => 0) 2 sampleState rfl).2
    (by norm_num [sampleState, SimUpdated.start_simulation])
  refine ⟨h.1.trans ?_, h.2.trans ?_⟩ <;>
    norm_num [sampleState, SimUpdated.start_simulation]

lemma wrapCoord_bounds (p L : ℚ) (h1 : -L ≤ p) (h2 : p ≤ 2 * L) :
    0 ≤ SimUpdated.wrapCoord p L ∧ SimUpdated.wrapCoord p L ≤ L := by
  unfold SimUpdated.wrapCoord
  split_ifs <;> constructor <;> linarith

lemma abs_vel_le (v c dt : ℚ) (hv : 0 ≤ v) (hdt : 0 ≤ dt) (hc : |c| ≤ 1) :
    |v * c * dt| ≤ v * dt := by
  rw [abs_mul, abs_mul, abs_of_nonneg hv, abs_of_nonneg hdt]
  have h1 : v * |c| ≤ v * 1 := mul_le_mul_of_nonneg_left hc hv
  have h2 : v * |c| * dt ≤ v * 1 * dt := mul_le_mul_of_nonneg_right h1 hdt
  nlinarith

/-- C5: under the periodic boundary policy, a coordinate that leaves
`[0, size]` after the raw update is brought back by adding or subtracting
`size`, so each coordinate stays in `[0, size]` after every step (given
that one step moves by at most `size`), and the step never terminates the
run (`running` is untouched). -/
theorem periodic_step_in_domain (cosF sinF : ℚ → ℚ) (s : SimUpdated.State)
    (hcos : ∀ x, |cosF x| ≤ 1) (hsin : ∀ x, |sinF x| ≤ 1)
    (hv : 0 ≤ s.v) (hdt : 0 ≤ s.dt)
    (hvw : s.v * s.dt ≤ s.width) (hvh : s.v * s.dt ≤ s.height)
    (hx0 : 0 ≤ s.position.1) (hxw : s.position.1 ≤ s.width)
    (hy0 : 0 ≤ s.position.2) (hyh : s.position.2 ≤ s.height) :
    (0 ≤ (SimUpdated.update_position cosF sinF s).position.1 ∧
      (SimUpdated.update_position cosF sinF s).position.1 ≤ s.width) ∧
    (0 ≤ (SimUpdated.update_position cosF sinF s).position.2 ∧
      (SimUpdated.update_position cosF sinF s).position.2 ≤ s.height) ∧
    (SimUpdated.update_position cosF sinF s).running = s.running := by
  have hbx := abs_vel_le s.v (cosF (s.theta + s.angular_velocity * s.dt)) s.dt
    hv hdt (hcos _)
  have hby := abs_vel_le s.v (sinF (s.theta + s.angular_velocity * s.dt)) s.dt
    hv hdt (hsin _)
  rw [abs_le] at hbx hby
  unfold SimUpdated.update_position
  refine ⟨?_, ?_, rfl⟩
  · exact wrapCoord_bounds _ _ (by linarith [hbx.1]) (by linarith [hbx.2])
  · exact wrapCoord_bounds _ _ (by linarith [hby.1]) (by linarith [hby.2])

/-- Witness for C5 on the started sample state (domain 800 × 600, speed 3,
`dt = 0.01`) with the constant direction field `cos = 1`, `sin = 0`. -/
theorem periodic_step_in_domain_witness :
    (0 ≤ (SimUpdated.update_position (fun _ => 1) (fun _ => 0)
        sampleState).position.1 ∧
      (SimUpdated.update_position (fun _ => 1) (fun _ => 0)
        sampleState).position.1 ≤ sampleState.width) ∧
    (0 ≤ (SimUpdated.update_position (fun _ => 1) (fun _ => 0)
        sampleState).position.2 ∧
      (SimUpdated.update_position (fun _ => 1) (fun _ => 0)
        sampleState).position.2 ≤ sampleState.height) ∧
    (SimUpdated.update_position (fun _ => 1) (fun _ => 0)
        sampleState).running = sampleState.running :=
  periodic_step_in_domain (fun _ => 1) (fun _ => 0) sampleState
    (fun _ => by norm_num) (fun _ => by norm_num)
    (by norm_num [sampleState, SimUpdated.start_simulation])
    (by norm_num [sampleState, SimUpdated.start_simulation])
    (by norm_num [sampleState, SimUpdated.start_simulation])
    (by norm_num [sampleState, SimUpdated.start_simulation])
    (by norm_num [sampleState, SimUpdated.start_simulation])
    (by norm_num [sampleState, SimUpdated.start_simulation])
    (by norm_num [sampleState, SimUpdated.start_simulation])
    (by norm_num [sampleState, SimUpdated.start_simulation])

lemma step_position_eq (cosF sinF : ℚ → ℚ) (s : Sim.State) :
    (Sim.update_position cosF sinF s).position =
      (s.position.1 + s.speed * cosF (s.theta + s.angular_velocity),
       s.position.2 + s.speed * sinF (s.theta + s.angular_velocity)) := by
  simp only [Sim.update_position]
  split_ifs <;> rfl

lemma speed_zero_step (cosF sinF : ℚ → ℚ) (t : Sim.State) (h : t.speed = 0) :
    (Sim.update_position cosF sinF t).position = t.position ∧
    (Sim.update_position cosF sinF t).speed = 0 := by
  constructor
  · rw [step_position_eq, h]
    simp
  · simp only [Sim.update_position]
    split_ifs <;> simp [h]

lemma speed_zero_iterate (cosF sinF : ℚ → ℚ) (t : Sim.State) (h : t.speed = 0)
    (n : ℕ) : ((Sim.update_position cosF sinF)^[n] t).position = t.position := by
  induction n generalizing t with
  | zero => rfl
  | succ n ih =>
    rw [Function.iterate_succ_apply]
    have hs := speed_zero_step cosF sinF t h
    rw [ih (Sim.update_position cosF sinF t) hs.2, hs.1]

/-- C8: in the reflective/absorbing variant, a step whose moved position
leaves `[radius, size - radius]` in either coordinate zeroes the velocity,
the angular velocity and the speed and sets `running = false`; from that
state, every later step leaves the position unchanged. -/
theorem wall_hit_terminates (cosF sinF : ℚ → ℚ) (s : Sim.State) (n : ℕ)
    (hhit : (Sim.update_position cosF sinF s).position.1 < s.radius ∨
      (Sim.update_position cosF sinF s).position.1 > s.width - s.radius ∨
      (Sim.update_position cosF sinF s).position.2 < s.radius ∨
      (Sim.update_position cosF sinF s).position.2 > s.height - s.radius) :
    (Sim.update_position cosF sinF s).velocity = (0, 0) ∧
    (Sim.update_position cosF sinF s).angular_velocity = 0 ∧
    (Sim.update_position cosF sinF s).speed = 0 ∧
    (Sim.update_position cosF sinF s).running = false ∧
    ((Sim.update_position cosF sinF)^[n]
        (Sim.update_position cosF sinF s)).position =
      (Sim.update_position cosF sinF s).position := by
  rw [step_position_eq] at hhit
  have hcond : (s.position.1 + s.speed * cosF (s.theta + s.angular_velocity))
        - s.radius ≤ 0 ∨
      (s.position.1 + s.speed * cosF (s.theta + s.angular_velocity))
        + s.radius ≥ s.width ∨
      (s.position.2 + s.speed * sinF (s.theta + s.angular_velocity))
        - s.radius ≤ 0 ∨
      (s.position.2 + s.speed * sinF (s.theta + s.angular_velocity))
        + s.radius ≥ s.height := by
    rcases hhit with h | h | h | h
    · left; simp at h; linarith
    · right; left; simp at h; linarith
    · right; right; left; simp at h; linarith
    · right; right; right; simp at h; linarith
  have hclamp : (Sim.update_position cosF sinF s).velocity = (0, 0) ∧
      (Sim.update_position cosF sinF s).angular_velocity = 0 ∧
      (Sim.update_position cosF sinF s).speed = 0 ∧
      (Sim.update_position cosF sinF s).running = false := by
    simp only [Sim.update_position]
    rw [if_pos hcond]
    exact ⟨rfl, rfl, rfl, rfl⟩
  exact ⟨hclamp.1, hclamp.2.1, hclamp.2.2.1, hclamp.2.2.2,
    speed_zero_iterate cosF sinF _ hclamp.2.2.1 n⟩

/-- A `sim.py` state already out of bounds (x = 3 < radius = 5) with zero
speed, used as the concrete witness input for the wall-hit claim. -/
def wallState : Sim.State :=
  { running := true
    radius := 5
    position := (3, 200)
    initial_position := (300, 200)
    theta := 0
    neta := 1 / 10
    angular_velocity := 0
    speed := 0
    velocity := (0, 0)
    current_time := 0
    positions_history := [(300, 200)]
    time_steps := [0]
    msd_values := [0]
    width := 600
    height := 400 }

/-- Witness for C8: stepping `wallState` trips the wall test, zeroing
velocity, angular velocity and speed, stopping the run, and the position
is unchanged two further steps later. -/
theorem wall_hit_terminates_witness :
    (Sim.update_position (fun _ => 1) (fun _ => 0) wallState).velocity = (0, 0) ∧
    (Sim.update_position (fun _ => 1) (fun _ => 0) wallState).angular_velocity
        = 0 ∧
    (Sim.update_position (fun _ => 1) (fun _ => 0) wallState).speed = 0 ∧
    (Sim.update_position (fun _ => 1) (fun _ => 0) wallState).running = false ∧
    ((Sim.update_position (fun _ => 1) (fun _ => 0))^[2]
        (Sim.update_position (fun _ => 1) (fun _ => 0) wallState)).position =
      (Sim.update_position (fun _ => 1) (fun _ => 0) wallState).position :=
  wall_hit_terminates (fun _ => 1) (fun _ => 0) wallState 2
    (by left; rw [step_position_eq]; norm_num [wallState])

lemma squaredDisplacements_length (w h : ℚ) (positions : List (ℚ × ℚ)) (k : ℕ) :
    (SimUpdated.squaredDisplacements w h positions k).length =
      positions.length - k := by
  simp [SimUpdated.squaredDisplacements]

lemma squaredDisplacements_not_empty (w h : ℚ) (positions : List (ℚ × ℚ))
    (k : ℕ) (hk : k < positions.length) :
    (SimUpdated.squaredDisplacements w h positions k).isEmpty = false := by
  rw [List.isEmpty_eq_false_iff_exists_mem]
  have hlen : (SimUpdated.squaredDisplacements w h positions k).length =
      positions.length - k := squaredDisplacements_length w h positions k
  have hpos : 0 < (SimUpdated.squaredDisplacements w h positions k).length := by
    omega
  exact List.exists_mem_of_length_pos hpos

lemma filterMap_eq_map_of_some {α β : Type} (f : α → Option β) (g : α → β)
    (l : List α) (h : ∀ a ∈ l, f a = some (g a)) : l.filterMap f = l.map g := by
  induction l with
  | nil => rfl
  | cons a l ih =>
    rw [List.filterMap_cons, h a (by simp), List.map_cons,
      ih fun b hb => h b (by simp [hb])]

lemma calculate_msd_eq_map (w h : ℚ) (positions : List (ℚ × ℚ))
    (times : List ℚ) (h2 : 2 ≤ positions.length) :
    SimUpdated.calculate_msd w h positions times =
      (List.range' 1 (min positions.length 1000 - 1)).map fun k =>
        (times.getD k 0 - times.getD 0 0,
          SimUpdated.listMean (SimUpdated.squaredDisplacements w h positions k)) := by
  unfold SimUpdated.calculate_msd
  apply filterMap_eq_map_of_some
  intro k hk
  rw [List.mem_range'_1] at hk
  have hklt : k < positions.length := by omega
  simp only [squaredDisplacements_not_empty w h positions k hklt,
    Bool.false_eq_true, if_false]

/-- C1: for a sample series of `n ≥ 2` entries and a lag index `k` with
`1 ≤ k < min n 1000`, the estimator's `(k-1)`-th curve entry has lag time
`times[k] - times[0]` and MSD value the mean, over start indices
`i in 0 .. n-k-1`, of the squared periodic-corrected displacement from
`positions[i]` to `positions[i+k]`. -/
theorem msd_lag_entry (w h : ℚ) (positions : List (ℚ × ℚ)) (times : List ℚ)
    (k : ℕ) (h2 : 2 ≤ positions.length) (hk1 : 1 ≤ k)
    (hkm : k < min positions.length 1000) :
    (SimUpdated.calculate_msd w h positions times).getD (k - 1) (0, 0) =
      (times.getD k 0 - times.getD 0 0,
        (SimUpdated.squaredDisplacements w h positions k).sum /
          ((positions.length - k : ℕ) : ℚ)) := by
  rw [calculate_msd_eq_map w h positions times h2]
  have hidx : k - 1 < (List.range' 1 (min positions.length 1000 - 1)).length := by
    rw [List.length_range']
    omega
  have hidx2 : k - 1 < ((List.range' 1 (min positions.length 1000 - 1)).map
      fun k => ((times.getD k 0 - times.getD 0 0,
        SimUpdated.listMean (SimUpdated.squaredDisplacements w h positions k)) :
          ℚ × ℚ)).length := by
    rw [List.length_map]
    exact hidx
  rw [List.getD_eq_getElem?_getD, List.getElem?_eq_getElem hidx2]
  rw [List.getElem_map]
  rw [List.getElem_range'_1 (k - 1) hidx]
  have hk' : 1 + (k - 1) = k := by omega
  rw [hk']
  unfold SimUpdated.listMean
  rw [squaredDisplacements_length w h positions k]
  simp

/-- Witness for C1 on a three-sample series with lag index `k = 1`. -/
theorem msd_lag_entry_witness :
    (SimUpdated.calculate_msd 10 10 [((0 : ℚ), (0 : ℚ)), (1, 1), (2, 0)]
        [(0 : ℚ), 1, 2]).getD (1 - 1) (0, 0) =
      (List.getD [(0 : ℚ), 1, 2] 1 0 - List.getD [(0 : ℚ), 1, 2] 0 0,
        (SimUpdated.squaredDisplacements 10 10
            [((0 : ℚ), (0 : ℚ)), (1, 1), (2, 0)] 1).sum /
          ((List.length [((0 : ℚ), (0 : ℚ)), (1, 1), (2, 0)] - 1 : ℕ) : ℚ)) :=
  msd_lag_entry 10 10 [((0 : ℚ), (0 : ℚ)), (1, 1), (2, 0)] [(0 : ℚ), 1, 2] 1
    (by decide) (by decide) (by decide)

/-- C9: for samples with strictly increasing times, the estimator returns
a curve of length at most `min n 1000 - 1` whose lag times are positive
and strictly increasing and whose MSD values are all nonnegative; with
fewer than two samples the curve is empty. -/
theorem msd_curve_invariants (w h : ℚ) (positions : List (ℚ × ℚ))
    (times : List ℚ) (hlen : times.length = positions.length)
    (hmono : ∀ i j : ℕ, i < j → j < times.length →
      times.getD i 0 < times.getD j 0) :
    (SimUpdated.calculate_msd w h positions times).length ≤
        min positions.length 1000 - 1 ∧
    (∀ p ∈ SimUpdated.calculate_msd w h positions times, 0 < p.1) ∧
    List.Pairwise (fun p q => p.1 < q.1)
      (SimUpdated.calculate_msd w h positions times) ∧
    (∀ p ∈ SimUpdated.calculate_msd w h positions times, 0 ≤ p.2) ∧
    (positions.length < 2 →
      SimUpdated.calculate_msd w h positions times = []) := by
  refine ⟨?_, ?_, ?_, ?_, ?_⟩
  · unfold SimUpdated.calculate_msd
    calc ((List.range' 1 (min positions.length 1000 - 1)).filterMap _).length
        ≤ (List.range' 1 (min positions.length 1000 - 1)).length :=
          List.length_filterMap_le _ _
      _ = min positions.length 1000 - 1 := by simp
  · intro p hp
    unfold SimUpdated.calculate_msd at hp
    rw [List.mem_filterMap] at hp
    obtain ⟨k, hk, hfk⟩ := hp
    rw [List.mem_range'_1] at hk
    split_ifs at hfk with hemp
    have hkn : k < times.length := by
      rw [hlen]
      omega
    have hlt := hmono 0 k (by omega) hkn
    have hp1 : p.1 = times.getD k 0 - times.getD 0 0 := by
      rw [← Option.some_inj.mp hfk]
    rw [hp1]
    linarith
  · by_cases h2 : 2 ≤ positions.length
    · rw [calculate_msd_eq_map w h positions times h2]
      rw [List.pairwise_iff_getElem]
      intro i j hi hj hij
      rw [List.length_map, List.length_range'] at hi hj
      rw [List.getElem_map, List.getElem_map,
        List.getElem_range'_1 i (by rw [List.length_range']; omega),
        List.getElem_range'_1 j (by rw [List.length_range']; omega)]
      have hjn : 1 + j < times.length := by
        rw [hlen]
        omega
      have hlt := hmono (1 + i) (1 + j) (by omega) hjn
      simp only
      linarith
    · have hempty : SimUpdated.calculate_msd w h positions times = [] := by
        unfold SimUpdated.calculate_msd
        have hm : min positions.length 1000 - 1 = 0 := by omega
        rw [hm]
        rfl
      rw [hempty]
      exact List.Pairwise.nil
  · intro p hp
    unfold SimUpdated.calculate_msd at hp
    rw [List.mem_filterMap] at hp
    obtain ⟨k, hk, hfk⟩ := hp
    split_ifs at hfk with hemp
    have hp2 : p.2 =
        SimUpdated.listMean (SimUpdated.squaredDisplacements w h positions k) := by
      rw [← Option.some_inj.mp hfk]
    rw [hp2]
    apply listMean_nonneg
    intro a ha
    unfold SimUpdated.squaredDisplacements at ha
    rw [List.mem_map] at ha
    obtain ⟨i, _, hia⟩ := ha
    rw [← hia]
    exact sqDisp_nonneg w h _ _
  · intro hn
    unfold SimUpdated.calculate_msd
    have hm : min positions.length 1000 - 1 = 0 := by omega
    rw [hm]
    rfl

/-- Witness for C9 on the two-sample series `times = [0, 1]`. -/
theorem msd_curve_invariants_witness :
    (SimUpdated.calculate_msd 10 10 [((0 : ℚ), (0 : ℚ)), (1, 1)]
        [(0 : ℚ), 1]).length ≤
      min (List.length [((0 : ℚ), (0 : ℚ)), (1, 1)]) 1000 - 1 ∧
    (∀ p ∈ SimUpdated.calculate_msd 10 10 [((0 : ℚ), (0 : ℚ)), (1, 1)]
        [(0 : ℚ), 1], 0 < p.1) ∧
    List.Pairwise (fun p q => p.1 < q.1)
      (SimUpdated.calculate_msd 10 10 [((0 : ℚ), (0 : ℚ)), (1, 1)]
        [(0 : ℚ), 1]) ∧
    (∀ p ∈ SimUpdated.calculate_msd 10 10 [((0 : ℚ), (0 : ℚ)), (1, 1)]
        [(0 : ℚ), 1], 0 ≤ p.2) ∧
    (List.length [((0 : ℚ), (0 : ℚ)), (1, 1)] < 2 →
      SimUpdated.calculate_msd 10 10 [((0 : ℚ), (0 : ℚ)), (1, 1)]
        [(0 : ℚ), 1] = []) :=
  msd_curve_invariants 10 10 [((0 : ℚ), (0 : ℚ)), (1, 1)] [(0 : ℚ), 1]
    (by decide)
    (by
      intro i j hij hj
      simp only [List.length_cons, List.length_nil] at hj
      interval_cases j
      · omega
      · interval_cases i
        · decide)
